import Mathlib

/-!
liteRadar: framing, checksum, parameter handshake and status tracking.

A shallow embedding of `src/liteRadar.cpp` (the `Radar` class of the liteRadar
Arduino library) together with theorems about it.

Conventions of the embedding

* A byte is a `Nat`; where the source does 8-bit arithmetic the model reduces
  modulo 256 explicitly.
* `Frame::msg` is a fixed-size C array.  It is modelled by a `List Nat` whose
  length is the capacity of the array.  A store `msg[i] = c` with `i` at or
  beyond the capacity is undefined behaviour in C++; the model stops at the first
  such store and reports it (`Outcome.overflow`, `none`, `Verdict.fault`,
  `Status.fault`).
* The input side of the Arduino `Stream` is the list of bytes currently
  buffered.  `available()` is non-zero exactly when the list is non-empty, and
  `read()` on an empty buffer returns `-1`, which the assignment to `byte c`
  turns into `0xFF`.
* The header `liteRadar.h` is not part of the sources at hand.  The values it
  gives to the protocol constants and the size it gives to `Frame::msg` are
  parameters (`Header`); the three field offsets are taken from the wire
  layout of the specification.
-/

namespace LiteRadar

/-! ## Data model -/

/-- Constants declared in `liteRadar.h`: the frame delimiters, the command and
control codes the source refers to, and `cap`, the number of bytes of
`Frame::msg`. -/
structure Header where
  HEAD1 : Nat
  HEAD2 : Nat
  END1 : Nat
  END2 : Nat
  INIT_COMPLETE : Nat
  HUMAN_STATUS : Nat
  PRESENCE : Nat
  MOTION : Nat
  cap : Nat
deriving DecidableEq, Repr

/-- Modelled from the spec: the macro `CONTROL` of `liteRadar.h` is missing; the
wire layout of the specification puts the control byte at offset 2. -/
def CONTROL : Nat := 2

/-- Modelled from the spec: the macro `COMMAND` of `liteRadar.h` is missing; the
wire layout of the specification puts the command byte at offset 3. -/
def COMMAND : Nat := 3

/-- Modelled from the spec: the macro `DATA` of `liteRadar.h` is missing; the
wire layout of the specification puts the data byte at offset 6. -/
def DATA : Nat := 6

/-- The struct `Frame`: the byte array `msg` (the length of the list is its
capacity) and the length field `l`. -/
structure Frame where
  msg : List Nat
  l : Nat
deriving DecidableEq, Repr

/-- Result of `c = stream->read()`: the byte read and the remaining buffer.  On
an empty buffer `read()` returns `-1`, stored in a `byte` as `0xFF`. -/
def read : List Nat → Nat × List Nat
  | [] => (255, [])
  | b :: bs => (b, bs)

/-- What a call of `getFrame` does: it returns `found`, leaving `frame` in the
caller's struct and `rest` in the input buffer, or it stores past the end of
`msg`. -/
inductive Outcome where
  | ret (found : Bool) (frame : Frame) (rest : List Nat)
  | overflow
deriving DecidableEq, Repr

/-! ## getFrame -/

/-- Inner loop of `getFrame` with its epilogue (source lines 37-44), entered
with the byte `c` just read:
`while (c != END2) { msg[l] = c; l++; c = read(); }  frame->l = l+1; msg[l] = c; return true;` -/
def seekEnd (K : Header) (msg : List Nat) (l : Nat) (c : Nat) (s : List Nat) : Outcome :=
  if c ≠ K.END2 then
    if l < msg.length then
      seekEnd K (msg.set l c) (l + 1) (read s).1 (read s).2
    else Outcome.overflow
  else
    if l < msg.length then Outcome.ret true ⟨msg.set l c, l + 1⟩ s
    else Outcome.overflow
termination_by msg.length - l
decreasing_by simp_wf; omega

/-- Outer loop of `getFrame` (source lines 27-49) from the loop head, with the
current value of the local `l`.  The loop condition `stream->available()` holds
exactly when the buffer is non-empty; when it fails the function stores
`frame->l = 0` and returns false. -/
def scanHead (K : Header) (msg : List Nat) (l : Nat) (s : List Nat) : Outcome :=
  match s with
  | [] => Outcome.ret false ⟨msg, 0⟩ []
  | c :: s1 =>
    if c = K.HEAD1 then
      if l < msg.length then
        if (read s1).1 = K.HEAD2 then
          if l + 1 < msg.length then
            seekEnd K ((msg.set l c).set (l + 1) (read s1).1) (l + 2)
              (read (read s1).2).1 (read (read s1).2).2
          else Outcome.overflow
        else scanHead K (msg.set l c) (l + 1) (read s1).2
      else Outcome.overflow
    else scanHead K msg l s1
termination_by s.length
decreasing_by
  all_goals simp_wf
  all_goals first
    | omega
    | exact Nat.lt_succ_of_le
        ((fun t => by cases t <;> simp [read] : ∀ t : List Nat, (read t).2.length ≤ t.length) _)

/-- `Radar::getFrame`: the scan starts with `l = 0` on the caller's frame. -/
def getFrame (K : Header) (frame : Frame) (s : List Nat) : Outcome :=
  scanHead K frame.msg 0 s

/-! ## calculateChecksum and putFrame -/

/-- The accumulator `checksum` of `calculateChecksum` after `n` iterations of
`for (i = 0; i < cs_byte; i++) checksum = checksum + msg[i];` (8-bit). -/
def checksumLoop (msg : List Nat) : Nat → Nat
  | 0 => 0
  | n + 1 => (checksumLoop msg n + msg.getD n 0) % 256

/-- `Radar::calculateChecksum`.  `cs_byte = l - 3`; the store `msg[cs_byte]`
is out of bounds when `l < 3` (negative index) or `l - 3` is not below the
capacity, which is reported as `none`. -/
def calculateChecksum (frame : Frame) : Option Frame :=
  if 3 ≤ frame.l ∧ frame.l - 3 < frame.msg.length then
    some ⟨frame.msg.set (frame.l - 3) (checksumLoop frame.msg (frame.l - 3)), frame.l⟩
  else none

/-- `Radar::putFrame`: the bytes handed to `stream->write(frame->msg, frame->l)`. -/
def putFrame (frame : Frame) : List Nat := frame.msg.take frame.l

/-! ## setParam -/

/-- The local `req` of `setParam` as initialised (source lines 104-107): ten
given bytes, the remaining elements of the array zero, `l = 10`.  The
initialiser needs an array of at least ten bytes, so `10 ≤ K.cap` in every
program that compiles. -/
def reqInit (K : Header) (control command : Nat) : Frame :=
  ⟨[K.HEAD1, K.HEAD2, control, command, 0x00, 0x01, 0x00, 0x00, K.END1, K.END2]
      ++ List.replicate (K.cap - 10) 0, 10⟩

/-- The local `ret` of `setParam` as initialised (source lines 109-111): every
byte zero.  Its field `l` is not initialised; `getFrame` never reads it. -/
def retInit (K : Header) : Frame := ⟨List.replicate K.cap 0, 0⟩

/-- The value of `millis() - start` in `unsigned long` (32 bit) arithmetic. -/
def elapsed (now start : Nat) : Nat :=
  (now % 4294967296 + 4294967296 - start % 4294967296) % 4294967296

/-- One iteration of the polling loop as seen from outside: the bytes that
reached the input buffer since the previous iteration, and the value `millis()`
returns if this iteration asks for it. -/
structure Poll where
  arrived : List Nat
  now : Nat
deriving DecidableEq, Repr

/-- State of a `setParam` call after some iterations of its loop: it has
returned `b`, or it is still polling with the local `ret` and the input buffer
as given, or a `getFrame` call stored past the end of `ret.msg`. -/
inductive Verdict where
  | returned (b : Bool)
  | polling (ret : Frame) (input : List Nat)
  | fault
deriving DecidableEq, Repr

/-- Does the frame acknowledge the request (source lines 123-124)? -/
def acknowledges (K : Header) (control command : Nat) (f : Frame) : Bool :=
  if f.msg.getD CONTROL 0 = control then
    if f.msg.getD COMMAND 0 = command ∨ f.msg.getD COMMAND 0 = K.INIT_COMPLETE then true
    else false
  else false

/-- Body of `while (true)` in `setParam` (source lines 122-133), run once. -/
def pollOnce (K : Header) (control command start : Nat) (ret : Frame) (input : List Nat)
    (p : Poll) : Verdict :=
  match getFrame K ret (input ++ p.arrived) with
  | Outcome.overflow => Verdict.fault
  | Outcome.ret false f s => Verdict.polling f s
  | Outcome.ret true f s =>
    if acknowledges K control command f then Verdict.returned true
    else if 2000 ≤ elapsed p.now start then Verdict.returned false
    else Verdict.polling f s

/-- The loop `while (true)` of `setParam`, run for the iterations listed. -/
def waitAck (K : Header) (control command start : Nat) :
    Frame → List Nat → List Poll → Verdict
  | ret, input, [] => Verdict.polling ret input
  | ret, input, p :: ps =>
    match pollOnce K control command start ret input p with
    | Verdict.polling ret1 input1 => waitAck K control command start ret1 input1 ps
    | v => v

/-- A run of `setParam`: the calls of `stream->write` it made, each with the
bytes handed over, and where the call stands. -/
structure Run where
  writes : List (List Nat)
  verdict : Verdict
deriving DecidableEq, Repr

/-- `Radar::setParam`, with `start` the value of the first `millis()`, `input`
the bytes buffered when it is called and `polls` the iterations of its loop
that are observed. -/
def setParam (K : Header) (control command value start : Nat) (input : List Nat)
    (polls : List Poll) : Run :=
  match calculateChecksum ⟨(reqInit K control command).msg.set DATA value,
      (reqInit K control command).l⟩ with
  | none => ⟨[], Verdict.fault⟩
  | some req => ⟨[putFrame req], waitAck K control command start (retInit K) input polls⟩

/-! ## updateStatus, isPresent, isMoving -/

/-- Modelled from the spec: the class declaration in `liteRadar.h` is missing;
the specification gives the module state as the two byte fields `presence` and
`motion` of the driver instance. -/
structure Radar where
  presence : Nat
  motion : Nat
deriving DecidableEq, Repr

/-- `Radar::isPresent`: `return presence;` converts the byte to `bool`, which is
true exactly for a non-zero byte. -/
def isPresent (r : Radar) : Bool := decide (r.presence ≠ 0)

/-- `Radar::isMoving`: `if (motion == 0x02) return true; return false;` -/
def isMoving (r : Radar) : Bool := if r.motion = 0x02 then true else false

/-- What a call of `updateStatus` does: it returns `changed` with the fields as
given and `rest` in the input buffer; or control reaches the closing brace of
the function without passing a `return` statement (the only `return` sits
inside `if (getFrame(&f))`), which leaves the value of the call undefined; or
`getFrame` stored past the end of `f.msg`. -/
inductive Status where
  | returned (changed : Bool) (r : Radar) (rest : List Nat)
  | noReturn (r : Radar) (rest : List Nat)
  | fault
deriving DecidableEq, Repr

/-- `Radar::updateStatus` (source lines 265-292).  `f0` is the content of the
local `Frame f`, which the source does not initialise.  The two `switch`
statements are written as chains of tests; the labels of one `switch` are
distinct in every program that compiles, so the order of the tests is
immaterial there. -/
def updateStatus (K : Header) (r : Radar) (f0 : Frame) (s : List Nat) : Status :=
  match getFrame K f0 s with
  | Outcome.overflow => Status.fault
  | Outcome.ret false _ rest => Status.noReturn r rest
  | Outcome.ret true f rest =>
    if f.msg.getD CONTROL 0 = K.HUMAN_STATUS then
      if f.msg.getD COMMAND 0 = K.PRESENCE then
        if f.msg.getD DATA 0 ≠ r.presence then
          Status.returned true ⟨f.msg.getD DATA 0, r.motion⟩ rest
        else Status.returned false r rest
      else if f.msg.getD COMMAND 0 = K.MOTION then
        if f.msg.getD DATA 0 ≠ r.motion then
          Status.returned true ⟨r.presence, f.msg.getD DATA 0⟩ rest
        else Status.returned false r rest
      else Status.returned false r rest
    else Status.returned false r rest

/-! ## Sample values -/

/-- Sample header values used to evaluate the model on concrete inputs (the
wire values of the MR24HPC1 module, with a 10 byte `msg`). -/
def K0 : Header :=
  { HEAD1 := 0x53, HEAD2 := 0x59, END1 := 0x54, END2 := 0x43,
    INIT_COMPLETE := 0x01, HUMAN_STATUS := 0x80, PRESENCE := 0x01, MOTION := 0x02,
    cap := 10 }

/-- The request frame for control 0x01, command 0x02, value 0x05 as it stands
before `calculateChecksum`, with 0xEE in the checksum slot. -/
def requestDraft : Frame := ⟨[0x53, 0x59, 0x01, 0x02, 0x00, 0x01, 0x05, 0xEE, 0x54, 0x43], 10⟩

/-- A frame of the given capacity with every byte zero. -/
def zeroFrame (cap : Nat) : Frame := ⟨List.replicate cap 0, 0⟩

/-- A ten byte frame with control 0x80 and command 0x01, used as a frame that
does not acknowledge the sample request (0x01, 0x02, 0x05). -/
def statusReport : List Nat := [0x53, 0x59, 0x80, 0x01, 0x00, 0x01, 0x01, 0x2F, 0x54, 0x43]

/-- The ten byte presence report of the module with data byte `v`, for the
sample header values: control 0x80, command 0x01, checksum `cs`. -/
def presenceReport (v cs : Nat) : List Nat :=
  [0x53, 0x59, 0x80, 0x01, 0x00, 0x01, v, cs, 0x54, 0x43]

/-- The ten byte motion report of the module with data byte `v`, for the sample
header values: control 0x80, command 0x02, checksum `cs`. -/
def motionReport (v cs : Nat) : List Nat :=
  [0x53, 0x59, 0x80, 0x02, 0x00, 0x01, v, cs, 0x54, 0x43]

/-! ## Vocabulary of the statements -/

/-- The buffer holds `HEAD1` immediately followed by `HEAD2` somewhere. -/
def hasHeader (K : Header) : List Nat → Bool
  | a :: b :: t => (decide (a = K.HEAD1) && decide (b = K.HEAD2)) || hasHeader K (b :: t)
  | _ => false

/-- The buffer holds a complete frame: `HEAD1` immediately followed by `HEAD2`,
with an `END2` byte somewhere behind that pair. -/
def completeFrame (K : Header) : List Nat → Bool
  | a :: b :: t =>
    (decide (a = K.HEAD1) && decide (b = K.HEAD2) && decide (K.END2 ∈ t))
      || completeFrame K (b :: t)
  | _ => false

/-! ## Lemmas on getFrame -/

theorem read_nil : read [] = (255, []) := rfl

theorem read_cons (b : Nat) (bs : List Nat) : read (b :: bs) = (b, bs) := rfl

theorem set_length_append (pre old : List Nat) (x c : Nat) :
    (pre ++ x :: old).set pre.length c = pre ++ c :: old := by
  induction pre with
  | nil => rfl
  | cons a pre ih => simp [ih]

/-- The terminator search on a stream that continues with `t`, then `END2`:
the bytes of `t` and the terminator are stored behind the `pre.length` bytes
already captured. -/
theorem seekEnd_body (K : Header) (rest : List Nat) :
    ∀ (t pre old : List Nat) (c : Nat) (s : List Nat), K.END2 ∉ t →
      c :: s = t ++ K.END2 :: rest → t.length < old.length →
      seekEnd K (pre ++ old) pre.length c s =
        Outcome.ret true ⟨pre ++ t ++ [K.END2] ++ old.drop (t.length + 1),
          pre.length + t.length + 1⟩ rest := by
  intro t
  induction t with
  | nil =>
    intro pre old c s _ hcs hlen
    simp only [List.nil_append, List.cons.injEq] at hcs
    obtain ⟨rfl, rfl⟩ := hcs
    cases old with
    | nil => simp at hlen
    | cons x old =>
      rw [seekEnd]
      simp [set_length_append]
  | cons a t ih =>
    intro pre old c s hnot hcs hlen
    simp only [List.cons_append, List.cons.injEq] at hcs
    obtain ⟨rfl, rfl⟩ := hcs
    have ha : c ≠ K.END2 := fun h => hnot (by simp [h])
    have ht : K.END2 ∉ t := fun h => hnot (by simp [h])
    cases old with
    | nil => simp at hlen
    | cons x old =>
      have hrd : (read (t ++ K.END2 :: rest)).1 :: (read (t ++ K.END2 :: rest)).2
          = t ++ K.END2 :: rest := by
        cases t <;> simp [read]
      have hlen1 : t.length < old.length := by simpa using hlen
      rw [seekEnd]
      have := ih (pre ++ [c]) old _ _ ht hrd hlen1
      simp only [List.length_append, List.length_singleton, List.append_assoc,
        List.singleton_append] at this
      simp [ha, set_length_append, this, Nat.add_assoc, Nat.add_comm 1]

/-- Bytes different from `HEAD1` at the loop head are skipped. -/
theorem scanHead_noise (K : Header) (msg : List Nat) (l : Nat) (s : List Nat) :
    ∀ noise : List Nat, K.HEAD1 ∉ noise →
      scanHead K msg l (noise ++ s) = scanHead K msg l s := by
  intro noise
  induction noise with
  | nil => intro _; rfl
  | cons a noise ih =>
    intro hn
    have ha : a ≠ K.HEAD1 := fun h => hn (by simp [h])
    have hn1 : K.HEAD1 ∉ noise := fun h => hn (by simp [h])
    rw [List.cons_append, scanHead]
    simp [ha, ih hn1]

/-- The scan from the loop head with `pre.length` bytes already stored, on a
stream made of bytes other than `HEAD1`, then a header, a body without `END2`
and the terminator. -/
theorem scanHead_frame (K : Header) (pre old noise body rest : List Nat)
    (hn : K.HEAD1 ∉ noise) (hb : K.END2 ∉ body) (hcap : body.length + 3 ≤ old.length) :
    scanHead K (pre ++ old) pre.length (noise ++ ([K.HEAD1, K.HEAD2] ++ body ++ [K.END2]) ++ rest) =
      Outcome.ret true ⟨pre ++ ([K.HEAD1, K.HEAD2] ++ body ++ [K.END2]) ++ old.drop (body.length + 3),
        pre.length + (body.length + 3)⟩ rest := by
  match old, hcap with
  | a :: b :: old, hcap =>
    have hlen : body.length < old.length := by simp at hcap; omega
    have hrd : (read (body ++ K.END2 :: rest)).1 :: (read (body ++ K.END2 :: rest)).2
        = body ++ K.END2 :: rest := by
      cases body <;> simp [read]
    have hs := seekEnd_body K rest body (pre ++ [K.HEAD1, K.HEAD2]) old _ _ hb hrd hlen
    simp only [List.length_append, List.length_cons, List.length_nil, List.cons_append,
      List.nil_append, List.append_assoc, List.singleton_append, Nat.zero_add, Nat.reduceAdd] at hs
    simp only [List.append_assoc, scanHead_noise K _ _ _ noise hn]
    rw [List.cons_append, scanHead]
    simp only [List.cons_append, List.nil_append, read_cons, List.singleton_append]
    have h1 : (pre ++ a :: b :: old).set pre.length K.HEAD1 = pre ++ K.HEAD1 :: b :: old :=
      set_length_append pre (b :: old) a K.HEAD1
    have h2 : (pre ++ K.HEAD1 :: b :: old).set (pre.length + 1) K.HEAD2
        = pre ++ K.HEAD1 :: K.HEAD2 :: old := by
      have := set_length_append (pre ++ [K.HEAD1]) old b K.HEAD2
      simp only [List.length_append, List.length_singleton, List.append_assoc,
        List.singleton_append] at this
      exact this
    simp [h1, h2, hs]
    omega

/-- The frame `getFrame` leaves behind on a stream made of bytes other than
`HEAD1`, then a header, a body without `END2` and the terminator: the frame
bytes followed by the untouched tail of the caller's array. -/
theorem getFrame_frame_eq (K : Header) (f : Frame) (noise body rest : List Nat)
    (hn : K.HEAD1 ∉ noise) (hb : K.END2 ∉ body) (hcap : body.length + 3 ≤ f.msg.length) :
    getFrame K f (noise ++ ([K.HEAD1, K.HEAD2] ++ body ++ [K.END2]) ++ rest) =
      Outcome.ret true ⟨[K.HEAD1, K.HEAD2] ++ body ++ [K.END2] ++ f.msg.drop (body.length + 3),
        body.length + 3⟩ rest := by
  have := scanHead_frame K [] f.msg noise body rest hn hb hcap
  simpa [getFrame] using this

/-- A false start (`HEAD1` followed by a byte other than `HEAD2`) leaves its
`HEAD1` in the array and `l` incremented when the scan resumes. -/
theorem scanHead_false_start (K : Header) (pre old : List Nat) (a x : Nat) (s : List Nat)
    (hx : x ≠ K.HEAD2) :
    scanHead K (pre ++ a :: old) pre.length (K.HEAD1 :: x :: s) =
      scanHead K (pre ++ K.HEAD1 :: old) (pre.length + 1) s := by
  rw [scanHead]
  simp [read_cons, hx, set_length_append]

/-- What `getFrame` returns after one false start in front of a frame: the
stale `HEAD1` followed by the frame, one byte longer than the frame. -/
theorem getFrame_after_false_start (K : Header) (f : Frame) (x : Nat) (body rest : List Nat)
    (hx : x ≠ K.HEAD2) (hb : K.END2 ∉ body) (hcap : body.length + 4 ≤ f.msg.length) :
    getFrame K f ([K.HEAD1, x] ++ ([K.HEAD1, K.HEAD2] ++ body ++ [K.END2]) ++ rest) =
      Outcome.ret true
        ⟨K.HEAD1 :: ([K.HEAD1, K.HEAD2] ++ body ++ [K.END2]) ++ f.msg.drop (body.length + 4),
          body.length + 4⟩ rest := by
  obtain ⟨msg, l0⟩ := f
  match msg, hcap with
  | a :: old, hcap =>
    have hcap1 : body.length + 3 ≤ old.length := by simp at hcap; omega
    have h1 := scanHead_false_start K [] old a x
      (([K.HEAD1, K.HEAD2] ++ body ++ [K.END2]) ++ rest) hx
    have h2 := scanHead_frame K [K.HEAD1] old [] body rest (by simp) hb hcap1
    simp only [List.nil_append, List.length_nil, Nat.zero_add, List.length_singleton,
      List.singleton_append] at h1 h2
    simp only [getFrame, List.cons_append, List.nil_append, List.append_assoc] at h1 h2 ⊢
    rw [h1, h2]
    simp
    omega

/-- The terminator search never returns false. -/
theorem seekEnd_ne_false (K : Header) (g : Frame) (r : List Nat) :
    ∀ (n : Nat) (msg : List Nat) (l c : Nat) (s : List Nat), msg.length - l ≤ n →
      seekEnd K msg l c s ≠ Outcome.ret false g r := by
  intro n
  induction n with
  | zero =>
    intro msg l c s hn
    rw [seekEnd]
    have : ¬ l < msg.length := by omega
    simp [this]
  | succ n ih =>
    intro msg l c s hn
    rw [seekEnd]
    by_cases hc : c = K.END2
    · by_cases hl : l < msg.length <;> simp [hc, hl]
    · by_cases hl : l < msg.length
      · simp only [hc, hl, ne_eq, not_false_eq_true, if_true]
        exact ih _ _ _ _ (by simp; omega)
      · simp [hc, hl]

/-- Once `getFrame` has read a header at the start of the buffer it does not
return false, whatever follows. -/
theorem getFrame_header_ne_false (K : Header) (f g : Frame) (s r : List Nat) :
    getFrame K f (K.HEAD1 :: K.HEAD2 :: s) ≠ Outcome.ret false g r := by
  rw [getFrame, scanHead]
  simp only [read_cons, if_true]
  by_cases h0 : 0 < f.msg.length
  · by_cases h1 : 0 + 1 < f.msg.length
    · simp only [h0, h1, if_true]
      exact seekEnd_ne_false K g r _ _ _ _ _ (Nat.le_refl _)
    · simp [h0, h1]
  · simp [h0]

/-- The scan on a buffer without header: it runs to the end of the buffer and
returns false with `l = 0`, provided the false starts fit the array. -/
theorem scanHead_no_header (K : Header) :
    ∀ (n : Nat) (s msg : List Nat) (l : Nat), s.length ≤ n →
      hasHeader K (s ++ [255]) = false → l + s.count K.HEAD1 ≤ msg.length →
      ∃ msg1, scanHead K msg l s = Outcome.ret false ⟨msg1, 0⟩ [] := by
  intro n
  induction n with
  | zero =>
    intro s msg l hn _ _
    have : s = [] := List.length_eq_zero.mp (Nat.le_zero.mp hn)
    subst this
    exact ⟨msg, by rw [scanHead]⟩
  | succ n ih =>
    intro s msg l hn hh hc
    cases s with
    | nil => exact ⟨msg, by rw [scanHead]⟩
    | cons c s1 =>
      have hn1 : s1.length ≤ n := by simpa using hn
      rw [scanHead]
      by_cases hc1 : c = K.HEAD1
      · subst hc1
        have hl : l < msg.length := by simp at hc; omega
        cases s1 with
        | nil =>
          have h2 : (255 : Nat) ≠ K.HEAD2 := by
            intro h
            simp [hasHeader, ← h] at hh
          simp only [read_nil, if_true, hl, h2, if_false]
          exact ih [] _ _ (by simp) (by simp [hasHeader]) (by simp; omega)
        | cons x s2 =>
          have h2 : x ≠ K.HEAD2 := by
            intro h
            simp [hasHeader, h] at hh
          have hh2 : hasHeader K (s2 ++ [255]) = false := by
            cases s2 with
            | nil => simp [hasHeader]
            | cons y s3 =>
              simp only [List.cons_append, hasHeader, Bool.or_eq_false_iff] at hh ⊢
              exact hh.2.2
          have hn2 : s2.length ≤ n := by simp at hn1; omega
          have hcnt : l + 1 + s2.count K.HEAD1 ≤ msg.length := by
            have : s2.count K.HEAD1 ≤ (x :: s2).count K.HEAD1 := by
              rw [List.count_cons]; omega
            simp only [List.count_cons_self] at hc
            omega
          simp only [read_cons, if_true, hl, h2, if_false]
          exact ih s2 _ _ hn2 hh2 (by simpa using hcnt)
      · have hh1 : hasHeader K (s1 ++ [255]) = false := by
          cases s1 with
          | nil => simp [hasHeader]
          | cons y s3 =>
            simp only [List.cons_append, hasHeader, Bool.or_eq_false_iff] at hh ⊢
            exact hh.2
        have hcnt : l + s1.count K.HEAD1 ≤ msg.length := by
          rw [List.count_cons] at hc
          simp only [beq_iff_eq] at hc
          have : ¬ c = K.HEAD1 := hc1
          simp [this] at hc
          exact hc
        simp only [hc1, if_false]
        exact ih s1 _ _ hn1 hh1 hcnt

/-! ## Lemmas on calculateChecksum -/

/-- The 8-bit accumulator after `n` iterations is the sum of the first `n`
bytes modulo 256. -/
theorem checksumLoop_eq_sum (msg : List Nat) :
    ∀ n : Nat, n ≤ msg.length → checksumLoop msg n = (msg.take n).sum % 256 := by
  intro n
  induction n with
  | zero => intro _; simp [checksumLoop]
  | succ n ih =>
    intro hn
    have hlt : n < msg.length := hn
    rw [checksumLoop, ih (Nat.le_of_lt hlt), List.take_succ]
    simp only [List.getD_eq_getElem?_getD, List.getElem?_eq_getElem hlt, Option.getD_some,
      Option.toList_some, List.sum_append, List.sum_singleton]
    omega

/-- The accumulator after `n` iterations reads only the bytes below `n`. -/
theorem checksumLoop_congr (m1 m2 : List Nat) :
    ∀ n : Nat, (∀ i, i < n → m1.getD i 0 = m2.getD i 0) →
      checksumLoop m1 n = checksumLoop m2 n := by
  intro n
  induction n with
  | zero => intro _; rfl
  | succ n ih =>
    intro h
    rw [checksumLoop, checksumLoop, ih (fun i hi => h i (Nat.lt_succ_of_lt hi)),
      h n (Nat.lt_succ_self n)]

theorem getD_set_ne (m : List Nat) (i j v : Nat) (h : i ≠ j) :
    (m.set j v).getD i 0 = m.getD i 0 := by
  simp [List.getElem?_set, h.symm]

theorem getD_set_self (m : List Nat) (j v : Nat) (h : j < m.length) :
    (m.set j v).getD j 0 = v := by
  simp [List.getElem?_set, h]

theorem take_set_self (m : List Nat) (n v : Nat) : (m.set n v).take n = m.take n := by
  rw [List.set_take]
  exact List.set_eq_of_length_le (by simp)

/-- Two arrays of equal length that agree at every index are equal. -/
theorem list_eq_of_getD (m1 m2 : List Nat) (hlen : m1.length = m2.length)
    (h : ∀ i, m1.getD i 0 = m2.getD i 0) : m1 = m2 := by
  apply List.ext_getElem hlen
  intro i h1 h2
  have := h i
  simpa [List.getElem?_eq_getElem h1, List.getElem?_eq_getElem h2] using this

/-- Field offsets of a frame whose first four body bytes are the control byte,
the command byte and the length `0x00, 0x01`, none of them `END2`: `getFrame`
captures it up to its first `END2`, and the byte at the data offset is the
first byte behind the length. -/
theorem getFrame_fields (K : Header) (f : Frame) (control command value : Nat)
    (mid rest : List Nat) (hcap : mid.length + 7 ≤ f.msg.length)
    (hbody : K.END2 ∉ [control, command, 0x00, 0x01] ++ mid)
    (hval : (mid ++ [K.END2]).getD 0 0 = value) :
    ∃ g : Frame,
      getFrame K f ([K.HEAD1, K.HEAD2, control, command, 0x00, 0x01] ++ mid ++ [K.END2] ++ rest)
        = Outcome.ret true g rest ∧
      g.msg.getD CONTROL 0 = control ∧ g.msg.getD COMMAND 0 = command ∧
      g.msg.getD DATA 0 = value := by
  have h := getFrame_frame_eq K f [] ([control, command, 0x00, 0x01] ++ mid) rest
    (by simp) hbody (by simp; omega)
  refine ⟨⟨[K.HEAD1, K.HEAD2] ++ ([control, command, 0x00, 0x01] ++ mid) ++ [K.END2]
      ++ f.msg.drop (([control, command, 0x00, 0x01] ++ mid).length + 3),
      ([control, command, 0x00, 0x01] ++ mid).length + 3⟩, ?_, ?_, ?_, ?_⟩
  · simpa using h
  · simp [CONTROL]
  · simp [COMMAND]
  · cases mid with
    | nil => simpa [DATA] using hval
    | cons a mid => simpa [DATA] using hval

/-! ## Lemmas on setParam -/

/-- While the call is still polling, further iterations continue from the state
reached. -/
theorem waitAck_append (K : Header) (control command start : Nat) (post : List Poll) :
    ∀ (pre : List Poll) (ret : Frame) (input : List Nat) (ret1 : Frame) (input1 : List Nat),
      waitAck K control command start ret input pre = Verdict.polling ret1 input1 →
      waitAck K control command start ret input (pre ++ post)
        = waitAck K control command start ret1 input1 post := by
  intro pre
  induction pre with
  | nil =>
    intro ret input ret1 input1 h
    simp only [waitAck, Verdict.polling.injEq] at h
    obtain ⟨rfl, rfl⟩ := h
    rfl
  | cons p pre ih =>
    intro ret input ret1 input1 h
    simp only [List.cons_append, waitAck] at h ⊢
    cases hp : pollOnce K control command start ret input p with
    | returned b => simp [hp] at h
    | fault => simp [hp] at h
    | polling r i =>
      simp only [hp] at h ⊢
      exact ih r i ret1 input1 h

/-- The request frame after `req.msg[DATA] = value` and `calculateChecksum`. -/
theorem calculateChecksum_req (K : Header) (control command value : Nat) :
    calculateChecksum ⟨(reqInit K control command).msg.set DATA value,
        (reqInit K control command).l⟩ =
      some ⟨[K.HEAD1, K.HEAD2, control, command, 0x00, 0x01, value,
          (K.HEAD1 + K.HEAD2 + control + command + 0x00 + 0x01 + value) % 256, K.END1, K.END2]
        ++ List.replicate (K.cap - 10) 0, 10⟩ := by
  simp [calculateChecksum, reqInit, DATA, checksumLoop]

/-- `setParam` writes once and then runs its loop on the input as it found it. -/
theorem setParam_eq (K : Header) (control command value start : Nat) (input : List Nat)
    (polls : List Poll) :
    setParam K control command value start input polls =
      ⟨[[K.HEAD1, K.HEAD2, control, command, 0x00, 0x01, value,
          (K.HEAD1 + K.HEAD2 + control + command + 0x00 + 0x01 + value) % 256, K.END1, K.END2]],
        waitAck K control command start (retInit K) input polls⟩ := by
  simp [setParam, calculateChecksum_req, putFrame]

/-- The loop from a state in which the next iteration receives a frame. -/
theorem waitAck_frame (K : Header) (control command start : Nat) (ret : Frame)
    (input : List Nat) (p : Poll) (post : List Poll) (g : Frame) (rest : List Nat)
    (hg : getFrame K ret (input ++ p.arrived) = Outcome.ret true g rest) :
    waitAck K control command start ret input (p :: post) =
      if acknowledges K control command g then Verdict.returned true
      else if 2000 ≤ elapsed p.now start then Verdict.returned false
      else waitAck K control command start g rest post := by
  simp only [waitAck, pollOnce, hg]
  by_cases ha : acknowledges K control command g = true
  · simp [ha]
  · by_cases ht : 2000 ≤ elapsed p.now start <;> simp [ha, ht]

theorem acknowledges_iff (K : Header) (control command : Nat) (g : Frame) :
    acknowledges K control command g = true ↔
      (g.msg.getD CONTROL 0 = control ∧
        (g.msg.getD COMMAND 0 = command ∨ g.msg.getD COMMAND 0 = K.INIT_COMPLETE)) := by
  unfold acknowledges
  by_cases h1 : g.msg.getD CONTROL 0 = control
  · by_cases h2 : g.msg.getD COMMAND 0 = command ∨ g.msg.getD COMMAND 0 = K.INIT_COMPLETE
    · simp only [h1, h2, if_true, and_self]
    · simp only [h1, h2, if_true, if_false, and_false]
      exact ⟨fun h => absurd h (by decide), fun h => h.elim⟩
  · simp only [h1, if_false, false_and]
    exact ⟨fun h => absurd h (by decide), fun h => h.elim⟩

/-- With nothing buffered `getFrame` returns false at once. -/
theorem getFrame_nil (K : Header) (f : Frame) :
    getFrame K f [] = Outcome.ret false ⟨f.msg, 0⟩ [] := by
  rw [getFrame, scanHead]

/-- Iterations during which nothing arrives leave the call polling, whatever
the clock shows. -/
theorem waitAck_idle (K : Header) (control command start : Nat) (msg : List Nat) :
    ∀ times : List Nat,
      waitAck K control command start ⟨msg, 0⟩ [] (times.map (Poll.mk []))
        = Verdict.polling ⟨msg, 0⟩ [] := by
  intro times
  induction times with
  | nil => rfl
  | cons t times ih =>
    simp only [List.map_cons, waitAck, pollOnce, List.append_nil, getFrame_nil]
    exact ih

/-! ## Lemmas on what getFrame leaves behind -/

/-- The terminator search with at least as many bytes other than `END2` ahead
as the array has room for stores past the end of the array. -/
theorem seekEnd_overflow (K : Header) :
    ∀ (t msg : List Nat) (l c : Nat) (s : List Nat), K.END2 ∉ t → t <+: c :: s →
      msg.length ≤ l + t.length → seekEnd K msg l c s = Outcome.overflow := by
  intro t
  induction t with
  | nil =>
    intro msg l c s _ _ hlen
    have hl : ¬ l < msg.length := by simp at hlen; omega
    rw [seekEnd]
    by_cases hc : c = K.END2 <;> simp [hc, hl]
  | cons a t ih =>
    intro msg l c s hnot hpre hlen
    obtain ⟨r, hr⟩ := hpre
    simp only [List.cons_append, List.cons.injEq] at hr
    obtain ⟨rfl, rfl⟩ := hr
    have ha : a ≠ K.END2 := fun h => hnot (by simp [h])
    have ht : K.END2 ∉ t := fun h => hnot (by simp [h])
    rw [seekEnd]
    by_cases hl : l < msg.length
    · simp only [ha, hl, ne_eq, not_false_eq_true, if_true]
      apply ih _ _ _ _ ht
      · cases t with
        | nil => exact List.nil_prefix
        | cons x t => simp [read]
      · simp at hlen ⊢; omega
    · simp [ha, hl]

/-- On a buffer in which no `HEAD1` is immediately followed by `HEAD2` (the
`0xFF` read from the exhausted buffer counting as the byte after a trailing
`HEAD1`) and which holds no more `HEAD1` bytes than the array has room for,
`getFrame` returns false with `l = 0`, the buffer consumed. -/
theorem getFrame_no_header (K : Header) (f : Frame) (s : List Nat)
    (hh : hasHeader K (s ++ [255]) = false) (hc : s.count K.HEAD1 ≤ f.msg.length) :
    ∃ g : Frame, getFrame K f s = Outcome.ret false g [] ∧ g.l = 0 := by
  obtain ⟨msg1, h⟩ := scanHead_no_header K s.length s f.msg 0 (Nat.le_refl _) hh (by simpa using hc)
  exact ⟨⟨msg1, 0⟩, h, rfl⟩

/-- There is no length guard: on a header followed by at least capacity minus
two bytes other than `END2`, `getFrame` stores past the end of the array,
whatever follows. -/
theorem getFrame_long_body_overflow (K : Header) (f : Frame) (body rest : List Nat)
    (hb : K.END2 ∉ body) (hlong : f.msg.length ≤ body.length + 2) :
    getFrame K f ([K.HEAD1, K.HEAD2] ++ body ++ rest) = Outcome.overflow := by
  rw [getFrame, List.append_assoc, List.cons_append, scanHead]
  simp only [List.cons_append, List.nil_append, read_cons, if_true]
  by_cases h0 : 0 < f.msg.length
  · by_cases h1 : 0 + 1 < f.msg.length
    · simp only [h0, h1, if_true]
      apply seekEnd_overflow K body _ _ _ _ hb
      · cases hbr : body ++ rest with
        | nil =>
          have : body = [] := (List.append_eq_nil.mp hbr).1
          subst this
          exact List.nil_prefix
        | cons x t =>
          rw [read_cons]
          exact ⟨rest, hbr⟩
      · simp only [List.length_set]
        omega
    · simp [h0, h1]
  · simp [h0]

/-! ## Lemmas on updateStatus -/

/-- The call of `updateStatus` when `getFrame` hands it a frame. -/
theorem updateStatus_frame (K : Header) (r : Radar) (f0 : Frame) (s : List Nat) (g : Frame)
    (rest : List Nat) (hg : getFrame K f0 s = Outcome.ret true g rest) :
    updateStatus K r f0 s =
      if g.msg.getD CONTROL 0 = K.HUMAN_STATUS then
        if g.msg.getD COMMAND 0 = K.PRESENCE then
          if g.msg.getD DATA 0 ≠ r.presence then
            Status.returned true ⟨g.msg.getD DATA 0, r.motion⟩ rest
          else Status.returned false r rest
        else if g.msg.getD COMMAND 0 = K.MOTION then
          if g.msg.getD DATA 0 ≠ r.motion then
            Status.returned true ⟨r.presence, g.msg.getD DATA 0⟩ rest
          else Status.returned false r rest
        else Status.returned false r rest
      else Status.returned false r rest := by
  simp only [updateStatus, hg]

/-- The call of `updateStatus` when `getFrame` returns false: the function body
ends without a `return`. -/
theorem updateStatus_no_frame (K : Header) (r : Radar) (f0 : Frame) (s : List Nat) (g : Frame)
    (rest : List Nat) (hg : getFrame K f0 s = Outcome.ret false g rest) :
    updateStatus K r f0 s = Status.noReturn r rest := by
  simp only [updateStatus, hg]

/-- A five byte `HUMAN_STATUS`/`PRESENCE` frame carries no data byte;
`updateStatus` takes the byte its uninitialised local frame held at the data
offset (here 0xEE) and stores it as presence. -/
theorem updateStatus_short_frame_stale :
    updateStatus K0 ⟨0x00, 0x00⟩ ⟨List.replicate 10 0xEE, 0⟩ [0x53, 0x59, 0x80, 0x01, 0x43]
      = Status.returned true ⟨0xEE, 0x00⟩ [] := by
  have h : getFrame K0 ⟨List.replicate 10 0xEE, 0⟩ [0x53, 0x59, 0x80, 0x01, 0x43]
      = Outcome.ret true ⟨[0x53, 0x59, 0x80, 0x01, 0x43, 0xEE, 0xEE, 0xEE, 0xEE, 0xEE], 5⟩ [] := by
    simp [getFrame, scanHead, seekEnd, read, K0]
  rw [updateStatus_frame K0 _ _ _ _ _ h]
  decide

/-! ## Claims -/

/-- C1: for a buffer made of bytes other than `HEAD1`, then a frame
`[HEAD1, HEAD2] ++ body ++ [END2]` whose body has no `END2` and which fits the
capacity of the caller's array, then any further bytes, `getFrame` returns true,
leaves the further bytes unread, sets `l` to the length of the frame and the
first `l` bytes of `msg` are the bytes of the frame. -/
theorem getFrame_extracts_frame (K : Header) (f : Frame) (noise body rest : List Nat)
    (hn : K.HEAD1 ∉ noise) (hb : K.END2 ∉ body)
    (hcap : ([K.HEAD1, K.HEAD2] ++ body ++ [K.END2]).length ≤ f.msg.length) :
    ∃ g : Frame,
      getFrame K f (noise ++ ([K.HEAD1, K.HEAD2] ++ body ++ [K.END2]) ++ rest)
        = Outcome.ret true g rest ∧
      g.l = ([K.HEAD1, K.HEAD2] ++ body ++ [K.END2]).length ∧
      g.msg.take g.l = [K.HEAD1, K.HEAD2] ++ body ++ [K.END2] := by
  have hcap1 : body.length + 3 ≤ f.msg.length := by simpa using hcap
  refine ⟨_, getFrame_frame_eq K f noise body rest hn hb hcap1, by simp, ?_⟩
  have hl : ([K.HEAD1, K.HEAD2] ++ body ++ [K.END2]).length = body.length + 3 := by simp
  rw [← hl, List.take_left]

/-- C1, the scenario of the specification: one noise byte `0xAA` in front of
the ten byte frame with data byte `0x05`. -/
theorem getFrame_extracts_frame_witness :
    K0.HEAD1 ∉ [0xAA] ∧ K0.END2 ∉ [0x01, 0x02, 0x00, 0x01, 0x05, 0xB5, K0.END1] ∧
    ([K0.HEAD1, K0.HEAD2] ++ [0x01, 0x02, 0x00, 0x01, 0x05, 0xB5, K0.END1] ++ [K0.END2]).length
      ≤ (zeroFrame 10).msg.length ∧
    ∃ g : Frame,
      getFrame K0 (zeroFrame 10)
          ([0xAA] ++ ([K0.HEAD1, K0.HEAD2] ++ [0x01, 0x02, 0x00, 0x01, 0x05, 0xB5, K0.END1]
            ++ [K0.END2]) ++ [])
        = Outcome.ret true g [] ∧
      g.l = ([K0.HEAD1, K0.HEAD2] ++ [0x01, 0x02, 0x00, 0x01, 0x05, 0xB5, K0.END1]
        ++ [K0.END2]).length ∧
      g.msg.take g.l
        = [K0.HEAD1, K0.HEAD2] ++ [0x01, 0x02, 0x00, 0x01, 0x05, 0xB5, K0.END1] ++ [K0.END2] :=
  ⟨by decide, by decide, by decide,
    getFrame_extracts_frame K0 (zeroFrame 10) [0xAA] [0x01, 0x02, 0x00, 0x01, 0x05, 0xB5, K0.END1]
      [] (by decide) (by decide) (by decide)⟩

/-- C2, evaluated on `[HEAD1, 0x00]` in front of the frame
`[HEAD1, HEAD2, 0x01, END2]`: `getFrame` returns five bytes that begin with
`HEAD1, HEAD1`, not the four bytes of the frame; the byte at the control
offset is `HEAD2`. -/
theorem getFrame_false_start_kept :
    getFrame K0 (zeroFrame 10) ([0x53, 0x00] ++ [0x53, 0x59, 0x01, 0x43]) =
      Outcome.ret true ⟨[0x53, 0x53, 0x59, 0x01, 0x43, 0, 0, 0, 0, 0], 5⟩ [] := by
  simp [getFrame, scanHead, seekEnd, read, K0, zeroFrame]

/-- C3, evaluated on a partly received frame: the buffer `[HEAD1, HEAD2]` holds
no complete frame, yet `getFrame` does not return false with `l = 0`; after the
header it reads without asking `available()`, gets the `0xFF` of the exhausted
buffer each time, and stores it until it leaves the array. -/
theorem getFrame_header_without_end :
    completeFrame K0 [0x53, 0x59] = false ∧
    getFrame K0 (zeroFrame 10) [0x53, 0x59] = Outcome.overflow := by
  constructor
  · decide
  · simp [getFrame, scanHead, seekEnd, read, K0, zeroFrame]

/-- C4: for a frame `f` with `3 ≤ l ≤` capacity, `calculateChecksum` succeeds
and returns the caller's frame with one byte replaced: `l`, the size of the
array and every byte at an index other than `l - 3` are as in `f`, and the byte
at index `l - 3` is the sum of the bytes of `f` at the indices `0 .. l - 4`
modulo 256, which are also the bytes at those indices afterwards. -/
theorem calculateChecksum_sum (f : Frame) (h3 : 3 ≤ f.l) (hcap : f.l ≤ f.msg.length) :
    ∃ g : Frame, calculateChecksum f = some g ∧
      g = ⟨f.msg.set (f.l - 3) ((f.msg.take (f.l - 3)).sum % 256), f.l⟩ ∧
      g.l = f.l ∧ g.msg.length = f.msg.length ∧
      (∀ i, i ≠ f.l - 3 → g.msg.getD i 0 = f.msg.getD i 0) ∧
      g.msg.getD (f.l - 3) 0 = (f.msg.take (f.l - 3)).sum % 256 ∧
      g.msg.getD (f.l - 3) 0 = (g.msg.take (f.l - 3)).sum % 256 := by
  have hlt : f.l - 3 < f.msg.length := by omega
  have hsum : checksumLoop f.msg (f.l - 3) = (f.msg.take (f.l - 3)).sum % 256 :=
    checksumLoop_eq_sum _ _ (Nat.le_of_lt hlt)
  refine ⟨⟨f.msg.set (f.l - 3) ((f.msg.take (f.l - 3)).sum % 256), f.l⟩, ?_, rfl, rfl,
    by simp, ?_, ?_, ?_⟩
  · simp [calculateChecksum, h3, hlt, hsum]
  · intro i hi
    exact getD_set_ne _ _ _ _ hi
  · exact getD_set_self _ _ _ hlt
  · rw [getD_set_self _ _ _ hlt, take_set_self]

/-- C4 on the ten byte request frame for control 1, command 2, value 5, with
0xEE in the checksum slot: the slot becomes 0xB5, the other bytes stay. -/
theorem calculateChecksum_sum_witness :
    3 ≤ requestDraft.l ∧ requestDraft.l ≤ requestDraft.msg.length ∧
    ∃ g : Frame, calculateChecksum requestDraft = some g ∧
      g = ⟨requestDraft.msg.set (requestDraft.l - 3)
        ((requestDraft.msg.take (requestDraft.l - 3)).sum % 256), requestDraft.l⟩ ∧
      g.l = requestDraft.l ∧ g.msg.length = requestDraft.msg.length ∧
      (∀ i, i ≠ requestDraft.l - 3 → g.msg.getD i 0 = requestDraft.msg.getD i 0) ∧
      g.msg.getD (requestDraft.l - 3) 0
        = (requestDraft.msg.take (requestDraft.l - 3)).sum % 256 ∧
      g.msg.getD (requestDraft.l - 3) 0 = (g.msg.take (requestDraft.l - 3)).sum % 256 :=
  ⟨by decide, by decide, calculateChecksum_sum requestDraft (by decide) (by decide)⟩

/-- C5: `calculateChecksum` is idempotent and does not depend on what the
checksum slot held: for a frame `f1` with `3 ≤ l ≤` capacity and any frame `f2`
that differs from it at most in the byte at index `l - 3`, both give the same
frame `g`, and `calculateChecksum` applied to `g` gives `g` again. -/
theorem calculateChecksum_idempotent (f1 f2 : Frame) (h3 : 3 ≤ f1.l)
    (hcap : f1.l ≤ f1.msg.length) (hl : f2.l = f1.l) (hlen : f2.msg.length = f1.msg.length)
    (hsame : ∀ i, i ≠ f1.l - 3 → f2.msg.getD i 0 = f1.msg.getD i 0) :
    ∃ g : Frame, calculateChecksum f1 = some g ∧ calculateChecksum g = some g ∧
      calculateChecksum f2 = some g := by
  have hlt : f1.l - 3 < f1.msg.length := by omega
  refine ⟨⟨f1.msg.set (f1.l - 3) (checksumLoop f1.msg (f1.l - 3)), f1.l⟩, ?_, ?_, ?_⟩
  · simp [calculateChecksum, h3, hlt]
  · have hc : checksumLoop (f1.msg.set (f1.l - 3) (checksumLoop f1.msg (f1.l - 3))) (f1.l - 3)
        = checksumLoop f1.msg (f1.l - 3) :=
      checksumLoop_congr _ _ _ (fun i hi => getD_set_ne _ _ _ _ (Nat.ne_of_lt hi))
    simp [calculateChecksum, h3, hlt, hc]
  · have hc : checksumLoop f2.msg (f1.l - 3) = checksumLoop f1.msg (f1.l - 3) :=
      checksumLoop_congr _ _ _ (fun i hi => hsame i (Nat.ne_of_lt hi))
    have hm : f2.msg.set (f1.l - 3) (checksumLoop f1.msg (f1.l - 3))
        = f1.msg.set (f1.l - 3) (checksumLoop f1.msg (f1.l - 3)) := by
      apply list_eq_of_getD _ _ (by simp [hlen])
      intro i
      by_cases hi : i = f1.l - 3
      · subst hi
        rw [getD_set_self _ _ _ (by omega), getD_set_self _ _ _ hlt]
      · rw [getD_set_ne _ _ _ _ hi, getD_set_ne _ _ _ _ hi, hsame i hi]
    simp [calculateChecksum, hl, hlen, h3, hlt, hc, hm]

/-- C5 on the request frame for control 1, command 2, value 5, once with a
zero and once with `0xEE` in the checksum slot. -/
theorem calculateChecksum_idempotent_witness :
    3 ≤ (Frame.mk [0x53, 0x59, 1, 2, 0, 1, 5, 0, 0x54, 0x43] 10).l ∧
    (Frame.mk [0x53, 0x59, 1, 2, 0, 1, 5, 0, 0x54, 0x43] 10).l
      ≤ (Frame.mk [0x53, 0x59, 1, 2, 0, 1, 5, 0, 0x54, 0x43] 10).msg.length ∧
    ∃ g : Frame,
      calculateChecksum (Frame.mk [0x53, 0x59, 1, 2, 0, 1, 5, 0, 0x54, 0x43] 10) = some g ∧
      calculateChecksum g = some g ∧
      calculateChecksum (Frame.mk [0x53, 0x59, 1, 2, 0, 1, 5, 0xEE, 0x54, 0x43] 10) = some g :=
  ⟨by decide, by decide,
    calculateChecksum_idempotent (Frame.mk [0x53, 0x59, 1, 2, 0, 1, 5, 0, 0x54, 0x43] 10)
      (Frame.mk [0x53, 0x59, 1, 2, 0, 1, 5, 0xEE, 0x54, 0x43] 10) (by decide) (by decide) rfl rfl
      (by
        intro i hi
        have hi7 : i ≠ 7 := hi
        match i, hi7 with
        | 0, _ | 1, _ | 2, _ | 3, _ | 4, _ | 5, _ | 6, _ | 8, _ | 9, _ => rfl
        | 7, h => exact absurd rfl h
        | n + 10, _ => rfl)⟩

/-- C6: whatever the loop iterations bring, `setParam` calls `stream->write`
exactly once, with the ten bytes
`[HEAD1, HEAD2, control, command, 0x00, 0x01, value, cs, END1, END2]` where `cs`
is the sum of the seven bytes in front of it modulo 256, and the polling loop
then starts on the input buffer as `setParam` found it. -/
theorem setParam_writes_request (K : Header) (control command value start : Nat)
    (input : List Nat) (polls : List Poll) :
    (setParam K control command value start input polls).writes =
        [[K.HEAD1, K.HEAD2, control, command, 0x00, 0x01, value,
          (K.HEAD1 + K.HEAD2 + control + command + 0x00 + 0x01 + value) % 256,
          K.END1, K.END2]] ∧
      (setParam K control command value start input polls).verdict =
        waitAck K control command start (retInit K) input polls := by
  rw [setParam_eq]
  exact ⟨rfl, rfl⟩

/-- C7 fails when the control byte has the value of `END2`: `getFrame` stops at
that byte, returns three bytes, and the command and data offsets of the
caller's frame keep their old content (here zero, not 0x02 and 0x05). -/
theorem roundtrip_control_END2 :
    (setParam K0 0x43 0x02 0x05 0 [] []).writes
        = [[0x53, 0x59, 0x43, 0x02, 0x00, 0x01, 0x05, 0xF7, 0x54, 0x43]] ∧
      getFrame K0 (zeroFrame 10) [0x53, 0x59, 0x43, 0x02, 0x00, 0x01, 0x05, 0xF7, 0x54, 0x43]
        = Outcome.ret true ⟨[0x53, 0x59, 0x43, 0, 0, 0, 0, 0, 0, 0], 3⟩
            [0x02, 0x00, 0x01, 0x05, 0xF7, 0x54, 0x43] ∧
      (Frame.mk [0x53, 0x59, 0x43, 0, 0, 0, 0, 0, 0, 0] 3).msg.getD COMMAND 0 ≠ 0x02 ∧
      (Frame.mk [0x53, 0x59, 0x43, 0, 0, 0, 0, 0, 0, 0] 3).msg.getD DATA 0 ≠ 0x05 := by
  refine ⟨?_, ?_, by decide, by decide⟩
  · rw [setParam_eq]; rfl
  · simp [getFrame, scanHead, seekEnd, read, K0, zeroFrame]

/-- C7 as amended: when neither the control byte, the command byte nor the two
length bytes `0x00, 0x01` have the value of `END2`, feeding the bytes that
`setParam` writes to `getFrame` (on a frame of at least ten bytes) returns true
with control, command and data byte equal to the requested ones. -/
theorem setParam_roundtrip (K : Header) (control command value start : Nat)
    (input : List Nat) (polls : List Poll) (f : Frame) (hcap : 10 ≤ f.msg.length)
    (hc : control ≠ K.END2) (hm : command ≠ K.END2) (h0 : K.END2 ≠ 0x00) (h1 : K.END2 ≠ 0x01) :
    ∃ (w : List Nat) (g : Frame) (rest : List Nat),
      (setParam K control command value start input polls).writes = [w] ∧
      getFrame K f w = Outcome.ret true g rest ∧
      g.msg.getD CONTROL 0 = control ∧ g.msg.getD COMMAND 0 = command ∧
      g.msg.getD DATA 0 = value := by
  rw [setParam_eq]
  by_cases hv : value = K.END2
  · obtain ⟨g, hg, h2, h3, h6⟩ := getFrame_fields K f control command value []
      [(K.HEAD1 + K.HEAD2 + control + command + 0x00 + 0x01 + value) % 256, K.END1, K.END2]
      (by simp; omega) (by simp [hc.symm, hm.symm, h0, h1]) (by simp [hv])
    exact ⟨_, g, _, rfl, by simpa [hv] using hg, h2, h3, h6⟩
  · by_cases hs : (K.HEAD1 + K.HEAD2 + control + command + 0x00 + 0x01 + value) % 256 = K.END2
    · obtain ⟨g, hg, h2, h3, h6⟩ := getFrame_fields K f control command value [value]
        [K.END1, K.END2]
        (by simp; omega) (by simp [hc.symm, hm.symm, h0, h1, Ne.symm hv]) (by simp)
      exact ⟨_, g, _, rfl, by simpa [hs] using hg, h2, h3, h6⟩
    · by_cases he : K.END1 = K.END2
      · obtain ⟨g, hg, h2, h3, h6⟩ := getFrame_fields K f control command value
          [value, (K.HEAD1 + K.HEAD2 + control + command + 0x00 + 0x01 + value) % 256]
          [K.END2]
          (by simp; omega) (by simp [hc.symm, hm.symm, h0, h1, Ne.symm hv, Ne.symm hs])
          (by simp)
        exact ⟨_, g, _, rfl, by simpa [he] using hg, h2, h3, h6⟩
      · obtain ⟨g, hg, h2, h3, h6⟩ := getFrame_fields K f control command value
          [value, (K.HEAD1 + K.HEAD2 + control + command + 0x00 + 0x01 + value) % 256, K.END1]
          []
          (by simp; omega)
          (by simp [hc.symm, hm.symm, h0, h1, Ne.symm hv, Ne.symm hs, Ne.symm he])
          (by simp)
        exact ⟨_, g, _, rfl, by simpa using hg, h2, h3, h6⟩

/-- C7 as amended, for control 0x01, command 0x02, value 0x05. -/
theorem setParam_roundtrip_witness :
    10 ≤ (zeroFrame 10).msg.length ∧ 0x01 ≠ K0.END2 ∧ 0x02 ≠ K0.END2 ∧ K0.END2 ≠ 0x00 ∧
    K0.END2 ≠ 0x01 ∧
    ∃ (w : List Nat) (g : Frame) (rest : List Nat),
      (setParam K0 0x01 0x02 0x05 0 [] []).writes = [w] ∧
      getFrame K0 (zeroFrame 10) w = Outcome.ret true g rest ∧
      g.msg.getD CONTROL 0 = 0x01 ∧ g.msg.getD COMMAND 0 = 0x02 ∧
      g.msg.getD DATA 0 = 0x05 :=
  ⟨by decide, by decide, by decide, by decide, by decide,
    setParam_roundtrip K0 0x01 0x02 0x05 0 [] [] (zeroFrame 10) (by decide) (by decide)
      (by decide) (by decide) (by decide)⟩

/-- C8: suppose `setParam` is still polling after the iterations `pre` and the
next iteration `p` receives a frame `g`.  If the control byte of `g` is the
requested one and its command byte is the requested one or `INIT_COMPLETE`,
`setParam` returns true, whatever `millis()` shows in that iteration and
whatever would follow; and `setParam` has returned true after `p` only if `g`
satisfies that condition. -/
theorem setParam_acknowledged (K : Header) (control command value start : Nat)
    (input : List Nat) (pre : List Poll) (p : Poll) (post : List Poll)
    (ret1 : Frame) (input1 : List Nat) (g : Frame) (rest : List Nat)
    (hpre : (setParam K control command value start input pre).verdict
      = Verdict.polling ret1 input1)
    (hg : getFrame K ret1 (input1 ++ p.arrived) = Outcome.ret true g rest) :
    ((g.msg.getD CONTROL 0 = control ∧
        (g.msg.getD COMMAND 0 = command ∨ g.msg.getD COMMAND 0 = K.INIT_COMPLETE)) →
      (setParam K control command value start input (pre ++ p :: post)).verdict
        = Verdict.returned true) ∧
    ((setParam K control command value start input (pre ++ [p])).verdict = Verdict.returned true →
      (g.msg.getD CONTROL 0 = control ∧
        (g.msg.getD COMMAND 0 = command ∨ g.msg.getD COMMAND 0 = K.INIT_COMPLETE))) := by
  rw [setParam_eq] at hpre
  simp only at hpre
  constructor
  · intro hack
    rw [setParam_eq]
    simp only
    rw [waitAck_append K control command start _ pre _ _ _ _ hpre,
      waitAck_frame K control command start ret1 input1 p post g rest hg]
    simp [(acknowledges_iff K control command g).mpr hack]
  · intro hret
    rw [setParam_eq] at hret
    simp only at hret
    rw [waitAck_append K control command start _ pre _ _ _ _ hpre,
      waitAck_frame K control command start ret1 input1 p [] g rest hg] at hret
    by_cases ha : acknowledges K control command g = true
    · exact (acknowledges_iff K control command g).mp ha
    · by_cases ht : 2000 ≤ elapsed p.now start
      · simp [ha, ht] at hret
      · simp [ha, ht, waitAck] at hret

/-- C8 for the request (0x01, 0x02, 0x05): the first iteration receives the
frame with control 0x01 and command 0x02 while `millis() - start` is 5000. -/
theorem setParam_acknowledged_witness :
    (setParam K0 0x01 0x02 0x05 0 [] []).verdict = Verdict.polling (retInit K0) [] ∧
    getFrame K0 (retInit K0)
        ([] ++ (Poll.mk [0x53, 0x59, 0x01, 0x02, 0x00, 0x01, 0x05, 0xB5, 0x54, 0x43] 5000).arrived)
      = Outcome.ret true ⟨[0x53, 0x59, 0x01, 0x02, 0x00, 0x01, 0x05, 0xB5, 0x54, 0x43], 10⟩ [] ∧
    (((Frame.mk [0x53, 0x59, 0x01, 0x02, 0x00, 0x01, 0x05, 0xB5, 0x54, 0x43] 10).msg.getD CONTROL 0
          = 0x01 ∧
        ((Frame.mk [0x53, 0x59, 0x01, 0x02, 0x00, 0x01, 0x05, 0xB5, 0x54, 0x43] 10).msg.getD
            COMMAND 0 = 0x02 ∨
          (Frame.mk [0x53, 0x59, 0x01, 0x02, 0x00, 0x01, 0x05, 0xB5, 0x54, 0x43] 10).msg.getD
            COMMAND 0 = K0.INIT_COMPLETE)) →
      (setParam K0 0x01 0x02 0x05 0 []
          ([] ++ Poll.mk [0x53, 0x59, 0x01, 0x02, 0x00, 0x01, 0x05, 0xB5, 0x54, 0x43] 5000
            :: [])).verdict
        = Verdict.returned true) ∧
    ((setParam K0 0x01 0x02 0x05 0 []
          ([] ++ [Poll.mk [0x53, 0x59, 0x01, 0x02, 0x00, 0x01, 0x05, 0xB5, 0x54, 0x43] 5000])).verdict
        = Verdict.returned true →
      ((Frame.mk [0x53, 0x59, 0x01, 0x02, 0x00, 0x01, 0x05, 0xB5, 0x54, 0x43] 10).msg.getD CONTROL 0
          = 0x01 ∧
        ((Frame.mk [0x53, 0x59, 0x01, 0x02, 0x00, 0x01, 0x05, 0xB5, 0x54, 0x43] 10).msg.getD
            COMMAND 0 = 0x02 ∨
          (Frame.mk [0x53, 0x59, 0x01, 0x02, 0x00, 0x01, 0x05, 0xB5, 0x54, 0x43] 10).msg.getD
            COMMAND 0 = K0.INIT_COMPLETE))) :=
  have h1 : (setParam K0 0x01 0x02 0x05 0 [] []).verdict = Verdict.polling (retInit K0) [] := by
    rw [setParam_eq]; rfl
  have h2 : getFrame K0 (retInit K0)
        ([] ++ (Poll.mk [0x53, 0x59, 0x01, 0x02, 0x00, 0x01, 0x05, 0xB5, 0x54, 0x43] 5000).arrived)
      = Outcome.ret true ⟨[0x53, 0x59, 0x01, 0x02, 0x00, 0x01, 0x05, 0xB5, 0x54, 0x43], 10⟩ [] := by
    simp [getFrame, scanHead, seekEnd, read, K0, retInit]
  ⟨h1, h2,
    setParam_acknowledged K0 0x01 0x02 0x05 0 [] []
      (Poll.mk [0x53, 0x59, 0x01, 0x02, 0x00, 0x01, 0x05, 0xB5, 0x54, 0x43] 5000) []
      (retInit K0) [] ⟨[0x53, 0x59, 0x01, 0x02, 0x00, 0x01, 0x05, 0xB5, 0x54, 0x43], 10⟩ [] h1 h2⟩

/-- C9, evaluated on a stream that stays silent: whatever values `millis()`
would return in the iterations, `setParam` is still polling after them; it has
not returned false, because the elapsed time is only looked at inside
`if (getFrame(&ret))`. -/
theorem setParam_silent_still_polling (K : Header) (control command value start : Nat)
    (times : List Nat) :
    (setParam K control command value start [] (times.map (Poll.mk []))).verdict
      = Verdict.polling (retInit K) [] := by
  rw [setParam_eq]
  exact waitAck_idle K control command start _ times

/-- C10: suppose `setParam` is still polling after the iterations `pre` and the
next iteration `p` receives a frame `g` that does not acknowledge the request.
If `millis() - start` is below 2000 the call keeps polling, and a frame that
acknowledges the request in any later iteration reached while polling makes it
return true.  If `millis() - start` is at least 2000 the call returns false.
The difference is taken in 32 bit unsigned arithmetic, wrapping around. -/
theorem setParam_mismatch (K : Header) (control command value start : Nat)
    (input : List Nat) (pre : List Poll) (p : Poll) (post : List Poll)
    (ret1 : Frame) (input1 : List Nat) (g : Frame) (rest : List Nat)
    (hpre : (setParam K control command value start input pre).verdict
      = Verdict.polling ret1 input1)
    (hg : getFrame K ret1 (input1 ++ p.arrived) = Outcome.ret true g rest)
    (hno : ¬ (g.msg.getD CONTROL 0 = control ∧
        (g.msg.getD COMMAND 0 = command ∨ g.msg.getD COMMAND 0 = K.INIT_COMPLETE))) :
    (elapsed p.now start < 2000 →
      (setParam K control command value start input (pre ++ [p])).verdict
          = Verdict.polling g rest ∧
        ∀ (mid : List Poll) (q : Poll) (ret2 : Frame) (input2 : List Nat) (h : Frame)
          (rest2 : List Nat),
          (setParam K control command value start input (pre ++ p :: mid)).verdict
            = Verdict.polling ret2 input2 →
          getFrame K ret2 (input2 ++ q.arrived) = Outcome.ret true h rest2 →
          (h.msg.getD CONTROL 0 = control ∧
            (h.msg.getD COMMAND 0 = command ∨ h.msg.getD COMMAND 0 = K.INIT_COMPLETE)) →
          (setParam K control command value start input (pre ++ p :: mid ++ q :: post)).verdict
            = Verdict.returned true) ∧
    (2000 ≤ elapsed p.now start →
      (setParam K control command value start input (pre ++ p :: post)).verdict
        = Verdict.returned false) ∧
    elapsed p.now start =
      (if start % 4294967296 ≤ p.now % 4294967296 then p.now % 4294967296 - start % 4294967296
        else p.now % 4294967296 + 4294967296 - start % 4294967296) := by
  rw [setParam_eq] at hpre
  simp only at hpre
  have ha : ¬ acknowledges K control command g = true :=
    fun h => hno ((acknowledges_iff K control command g).mp h)
  refine ⟨?_, ?_, ?_⟩
  · intro ht
    have ht1 : ¬ 2000 ≤ elapsed p.now start := Nat.not_le.mpr ht
    constructor
    · rw [setParam_eq]
      simp only
      rw [waitAck_append K control command start _ pre _ _ _ _ hpre,
        waitAck_frame K control command start ret1 input1 p [] g rest hg]
      simp [ha, ht1, waitAck]
    · intro mid q ret2 input2 h rest2 hmid hh hack
      rw [setParam_eq] at hmid ⊢
      simp only at hmid ⊢
      have happ : pre ++ p :: mid ++ q :: post = (pre ++ p :: mid) ++ q :: post := by simp
      rw [happ, waitAck_append K control command start _ (pre ++ p :: mid) _ _ _ _ hmid,
        waitAck_frame K control command start ret2 input2 q post h rest2 hh]
      simp [(acknowledges_iff K control command h).mpr hack]
  · intro ht
    rw [setParam_eq]
    simp only
    rw [waitAck_append K control command start _ pre _ _ _ _ hpre,
      waitAck_frame K control command start ret1 input1 p post g rest hg]
    simp [ha, ht]
  · unfold elapsed
    have h1 : start % 4294967296 < 4294967296 := Nat.mod_lt _ (by decide)
    have h2 : p.now % 4294967296 < 4294967296 := Nat.mod_lt _ (by decide)
    split <;> omega

/-- C10 for the request (0x01, 0x02, 0x05) started at `millis() = 4294967000`:
the first iteration receives a frame with control 0x80 when `millis()` has
wrapped around to 100. -/
theorem setParam_mismatch_witness :
    (setParam K0 0x01 0x02 0x05 4294967000 [] []).verdict = Verdict.polling (retInit K0) [] ∧
    getFrame K0 (retInit K0) ([] ++ (Poll.mk statusReport 100).arrived)
      = Outcome.ret true ⟨statusReport, 10⟩ [] ∧
    ¬ ((Frame.mk statusReport 10).msg.getD CONTROL 0 = 0x01 ∧
        ((Frame.mk statusReport 10).msg.getD COMMAND 0 = 0x02 ∨
          (Frame.mk statusReport 10).msg.getD COMMAND 0 = K0.INIT_COMPLETE)) ∧
    ((elapsed (Poll.mk statusReport 100).now 4294967000 < 2000 →
      (setParam K0 0x01 0x02 0x05 4294967000 [] ([] ++ [Poll.mk statusReport 100])).verdict
          = Verdict.polling ⟨statusReport, 10⟩ [] ∧
        ∀ (mid : List Poll) (q : Poll) (ret2 : Frame) (input2 : List Nat) (h : Frame)
          (rest2 : List Nat),
          (setParam K0 0x01 0x02 0x05 4294967000 []
              ([] ++ Poll.mk statusReport 100 :: mid)).verdict
            = Verdict.polling ret2 input2 →
          getFrame K0 ret2 (input2 ++ q.arrived) = Outcome.ret true h rest2 →
          (h.msg.getD CONTROL 0 = 0x01 ∧
            (h.msg.getD COMMAND 0 = 0x02 ∨ h.msg.getD COMMAND 0 = K0.INIT_COMPLETE)) →
          (setParam K0 0x01 0x02 0x05 4294967000 []
              ([] ++ Poll.mk statusReport 100 :: mid ++ q :: [])).verdict
            = Verdict.returned true) ∧
    (2000 ≤ elapsed (Poll.mk statusReport 100).now 4294967000 →
      (setParam K0 0x01 0x02 0x05 4294967000 [] ([] ++ Poll.mk statusReport 100 :: [])).verdict
        = Verdict.returned false) ∧
    elapsed (Poll.mk statusReport 100).now 4294967000 =
      (if 4294967000 % 4294967296 ≤ (Poll.mk statusReport 100).now % 4294967296 then
          (Poll.mk statusReport 100).now % 4294967296 - 4294967000 % 4294967296
        else (Poll.mk statusReport 100).now % 4294967296 + 4294967296
          - 4294967000 % 4294967296)) :=
  have h1 : (setParam K0 0x01 0x02 0x05 4294967000 [] []).verdict
      = Verdict.polling (retInit K0) [] := by
    rw [setParam_eq]; rfl
  have h2 : getFrame K0 (retInit K0) ([] ++ (Poll.mk statusReport 100).arrived)
      = Outcome.ret true ⟨statusReport, 10⟩ [] := by
    simp [getFrame, scanHead, seekEnd, read, K0, retInit, statusReport]
  have h3 : ¬ ((Frame.mk statusReport 10).msg.getD CONTROL 0 = 0x01 ∧
        ((Frame.mk statusReport 10).msg.getD COMMAND 0 = 0x02 ∨
          (Frame.mk statusReport 10).msg.getD COMMAND 0 = K0.INIT_COMPLETE)) := by
    decide
  ⟨h1, h2, h3,
    setParam_mismatch K0 0x01 0x02 0x05 4294967000 [] [] (Poll.mk statusReport 100) []
      (retInit K0) [] ⟨statusReport, 10⟩ [] h1 h2 h3⟩

/-- C11: when `getFrame` hands `updateStatus` a frame `g`, the call returns, and
it returns true exactly when the control byte of `g` is `HUMAN_STATUS` and
either its command byte is `PRESENCE` and its data byte differs from the stored
presence, or its command byte is `MOTION` and its data byte differs from the
stored motion. -/
theorem updateStatus_changed_iff (K : Header) (r : Radar) (f0 : Frame) (s : List Nat)
    (g : Frame) (rest : List Nat) (hne : K.PRESENCE ≠ K.MOTION)
    (hg : getFrame K f0 s = Outcome.ret true g rest) :
    ∃ (c : Bool) (r1 : Radar), updateStatus K r f0 s = Status.returned c r1 rest ∧
      (c = true ↔
        (g.msg.getD CONTROL 0 = K.HUMAN_STATUS ∧
          ((g.msg.getD COMMAND 0 = K.PRESENCE ∧ g.msg.getD DATA 0 ≠ r.presence) ∨
            (g.msg.getD COMMAND 0 = K.MOTION ∧ g.msg.getD DATA 0 ≠ r.motion)))) := by
  rw [updateStatus_frame K r f0 s g rest hg]
  generalize g.msg.getD CONTROL 0 = ctl
  generalize g.msg.getD COMMAND 0 = cmd
  generalize g.msg.getD DATA 0 = dat
  by_cases h1 : ctl = K.HUMAN_STATUS
  · by_cases h2 : cmd = K.PRESENCE
    · have h3 : ¬ cmd = K.MOTION := fun h => hne (h2.symm.trans h)
      by_cases h4 : dat = r.presence
      · exact ⟨false, r, by simp [h1, h2, h4], by simp [h1, h3, h4]⟩
      · exact ⟨true, ⟨dat, r.motion⟩, by simp [h1, h2, h4], by simp [h1, h2, h4]⟩
    · by_cases h3 : cmd = K.MOTION
      · by_cases h4 : dat = r.motion
        · exact ⟨false, r, by simp [h1, h3, h4, hne.symm], by simp [h1, h2, h4]⟩
        · exact ⟨true, ⟨r.presence, dat⟩, by simp [h1, h3, h4, hne.symm],
            by simp [h1, h3, h4]⟩
      · exact ⟨false, r, by simp [h1, h2, h3], by simp [h2, h3]⟩
  · exact ⟨false, r, by simp [h1], by simp [h1]⟩

/-- C11 on the presence report with data 0x01 received while the stored
presence is 0x00. -/
theorem updateStatus_changed_iff_witness :
    K0.PRESENCE ≠ K0.MOTION ∧
    getFrame K0 (zeroFrame 10) (presenceReport 0x01 0x2F)
      = Outcome.ret true ⟨presenceReport 0x01 0x2F, 10⟩ [] ∧
    ∃ (c : Bool) (r1 : Radar),
      updateStatus K0 ⟨0x00, 0x00⟩ (zeroFrame 10) (presenceReport 0x01 0x2F)
        = Status.returned c r1 [] ∧
      (c = true ↔
        ((Frame.mk (presenceReport 0x01 0x2F) 10).msg.getD CONTROL 0 = K0.HUMAN_STATUS ∧
          (((Frame.mk (presenceReport 0x01 0x2F) 10).msg.getD COMMAND 0 = K0.PRESENCE ∧
              (Frame.mk (presenceReport 0x01 0x2F) 10).msg.getD DATA 0
                ≠ (Radar.mk 0x00 0x00).presence) ∨
            ((Frame.mk (presenceReport 0x01 0x2F) 10).msg.getD COMMAND 0 = K0.MOTION ∧
              (Frame.mk (presenceReport 0x01 0x2F) 10).msg.getD DATA 0
                ≠ (Radar.mk 0x00 0x00).motion)))) :=
  have h2 : getFrame K0 (zeroFrame 10) (presenceReport 0x01 0x2F)
      = Outcome.ret true ⟨presenceReport 0x01 0x2F, 10⟩ [] := by
    simp [getFrame, scanHead, seekEnd, read, K0, zeroFrame, presenceReport]
  ⟨by decide, h2,
    updateStatus_changed_iff K0 ⟨0x00, 0x00⟩ (zeroFrame 10) (presenceReport 0x01 0x2F)
      ⟨presenceReport 0x01 0x2F, 10⟩ [] (by decide) h2⟩

/-- C12: when `getFrame` hands `updateStatus` a frame `g`, the call returns with
the stored presence equal to the data byte of `g` if `g` is a
`HUMAN_STATUS`/`PRESENCE` frame and unchanged otherwise, and with the stored
motion equal to the data byte of `g` if `g` is a `HUMAN_STATUS`/`MOTION` frame
and unchanged otherwise. -/
theorem updateStatus_state (K : Header) (r : Radar) (f0 : Frame) (s : List Nat)
    (g : Frame) (rest : List Nat) (hne : K.PRESENCE ≠ K.MOTION)
    (hg : getFrame K f0 s = Outcome.ret true g rest) :
    ∃ (c : Bool) (r1 : Radar), updateStatus K r f0 s = Status.returned c r1 rest ∧
      r1.presence =
        (if g.msg.getD CONTROL 0 = K.HUMAN_STATUS ∧ g.msg.getD COMMAND 0 = K.PRESENCE
          then g.msg.getD DATA 0 else r.presence) ∧
      r1.motion =
        (if g.msg.getD CONTROL 0 = K.HUMAN_STATUS ∧ g.msg.getD COMMAND 0 = K.MOTION
          then g.msg.getD DATA 0 else r.motion) := by
  rw [updateStatus_frame K r f0 s g rest hg]
  generalize g.msg.getD CONTROL 0 = ctl
  generalize g.msg.getD COMMAND 0 = cmd
  generalize g.msg.getD DATA 0 = dat
  by_cases h1 : ctl = K.HUMAN_STATUS
  · by_cases h2 : cmd = K.PRESENCE
    · have h3 : ¬ cmd = K.MOTION := fun h => hne (h2.symm.trans h)
      by_cases h4 : dat = r.presence
      · exact ⟨false, r, by simp [h1, h2, h4], by simp [h1, h2, h4], by simp [h3]⟩
      · exact ⟨true, ⟨dat, r.motion⟩, by simp [h1, h2, h4], by simp [h1, h2], by simp [h3]⟩
    · by_cases h3 : cmd = K.MOTION
      · by_cases h4 : dat = r.motion
        · exact ⟨false, r, by simp [h1, h3, h4, hne.symm], by simp [h2],
            by simp [h1, h3, h4]⟩
        · exact ⟨true, ⟨r.presence, dat⟩, by simp [h1, h3, h4, hne.symm], by simp [h2],
            by simp [h1, h3]⟩
      · exact ⟨false, r, by simp [h1, h2, h3], by simp [h2], by simp [h3]⟩
  · exact ⟨false, r, by simp [h1], by simp [h1], by simp [h1]⟩

/-- C12 on the presence report with data 0x01 received while presence is 0x00
and motion is 0x02: presence becomes 0x01, motion stays 0x02. -/
theorem updateStatus_state_witness :
    K0.PRESENCE ≠ K0.MOTION ∧
    getFrame K0 (zeroFrame 10) (presenceReport 0x01 0x2F)
      = Outcome.ret true ⟨presenceReport 0x01 0x2F, 10⟩ [] ∧
    ∃ (c : Bool) (r1 : Radar),
      updateStatus K0 ⟨0x00, 0x02⟩ (zeroFrame 10) (presenceReport 0x01 0x2F)
        = Status.returned c r1 [] ∧
      r1.presence =
        (if (Frame.mk (presenceReport 0x01 0x2F) 10).msg.getD CONTROL 0 = K0.HUMAN_STATUS ∧
            (Frame.mk (presenceReport 0x01 0x2F) 10).msg.getD COMMAND 0 = K0.PRESENCE
          then (Frame.mk (presenceReport 0x01 0x2F) 10).msg.getD DATA 0
          else (Radar.mk 0x00 0x02).presence) ∧
      r1.motion =
        (if (Frame.mk (presenceReport 0x01 0x2F) 10).msg.getD CONTROL 0 = K0.HUMAN_STATUS ∧
            (Frame.mk (presenceReport 0x01 0x2F) 10).msg.getD COMMAND 0 = K0.MOTION
          then (Frame.mk (presenceReport 0x01 0x2F) 10).msg.getD DATA 0
          else (Radar.mk 0x00 0x02).motion) :=
  have h2 : getFrame K0 (zeroFrame 10) (presenceReport 0x01 0x2F)
      = Outcome.ret true ⟨presenceReport 0x01 0x2F, 10⟩ [] := by
    simp [getFrame, scanHead, seekEnd, read, K0, zeroFrame, presenceReport]
  ⟨by decide, h2,
    updateStatus_state K0 ⟨0x00, 0x02⟩ (zeroFrame 10) (presenceReport 0x01 0x2F)
      ⟨presenceReport 0x01 0x2F, 10⟩ [] (by decide) h2⟩

/-- C13, evaluated on an empty input buffer: `getFrame` returns false and
`updateStatus` reaches the end of its body without a `return`; the stored
fields are untouched, but the call does not return false. -/
theorem updateStatus_empty_no_return (K : Header) (r : Radar) (f0 : Frame) :
    updateStatus K r f0 [] = Status.noReturn r [] := by
  exact updateStatus_no_frame K r f0 [] _ [] (getFrame_nil K f0)

/-- C14: three calls of `updateStatus` that receive `HUMAN_STATUS`/`PRESENCE`
frames with data `v`, `v` and `w ≠ v`.  The first returns true exactly when `v`
differs from the stored presence and leaves presence `v`; the second returns
false and leaves the fields as the first left them; the third returns true and
stores `w`.  `isPresent` is true after a non-zero data byte and false after
0x00. -/
theorem updateStatus_repeat (K : Header) (r : Radar) (fa fb fc : Frame)
    (s0 s1 s2 s3 : List Nat) (g1 g2 g3 : Frame) (v w : Nat)
    (h1 : getFrame K fa s0 = Outcome.ret true g1 s1)
    (c1 : g1.msg.getD CONTROL 0 = K.HUMAN_STATUS) (m1 : g1.msg.getD COMMAND 0 = K.PRESENCE)
    (d1 : g1.msg.getD DATA 0 = v)
    (h2 : getFrame K fb s1 = Outcome.ret true g2 s2)
    (c2 : g2.msg.getD CONTROL 0 = K.HUMAN_STATUS) (m2 : g2.msg.getD COMMAND 0 = K.PRESENCE)
    (d2 : g2.msg.getD DATA 0 = v)
    (h3 : getFrame K fc s2 = Outcome.ret true g3 s3)
    (c3 : g3.msg.getD CONTROL 0 = K.HUMAN_STATUS) (m3 : g3.msg.getD COMMAND 0 = K.PRESENCE)
    (d3 : g3.msg.getD DATA 0 = w) (hw : w ≠ v) :
    ∃ (c : Bool) (r1 : Radar),
      updateStatus K r fa s0 = Status.returned c r1 s1 ∧ (c = true ↔ v ≠ r.presence) ∧
      r1.presence = v ∧ (isPresent r1 = true ↔ v ≠ 0x00) ∧
      updateStatus K r1 fb s1 = Status.returned false r1 s2 ∧
      updateStatus K r1 fc s2 = Status.returned true ⟨w, r1.motion⟩ s3 ∧
      (isPresent ⟨w, r1.motion⟩ = true ↔ w ≠ 0x00) := by
  by_cases hv : v = r.presence
  · refine ⟨false, r, ?_, by simp [hv], hv.symm, by simp [isPresent, hv], ?_, ?_,
      by simp [isPresent]⟩
    · rw [updateStatus_frame K r fa s0 g1 s1 h1, c1, m1, d1]
      simp [hv]
    · rw [updateStatus_frame K r fb s1 g2 s2 h2, c2, m2, d2]
      simp [hv]
    · rw [updateStatus_frame K r fc s2 g3 s3 h3, c3, m3, d3]
      have : w ≠ r.presence := hv ▸ hw
      simp [this]
  · refine ⟨true, ⟨v, r.motion⟩, ?_, by simp [hv], rfl, by simp [isPresent], ?_, ?_,
      by simp [isPresent]⟩
    · rw [updateStatus_frame K r fa s0 g1 s1 h1, c1, m1, d1]
      simp [hv]
    · rw [updateStatus_frame K _ fb s1 g2 s2 h2, c2, m2, d2]
      simp
    · rw [updateStatus_frame K _ fc s2 g3 s3 h3, c3, m3, d3]
      simp [hw]

/-- C14, the scenario of the specification: presence reports with data 0x01,
0x01, 0x00 received while the stored presence is 0x00. -/
theorem updateStatus_repeat_witness :
    getFrame K0 (zeroFrame 10)
        (presenceReport 0x01 0x2F ++ presenceReport 0x01 0x2F ++ presenceReport 0x00 0x2E)
      = Outcome.ret true ⟨presenceReport 0x01 0x2F, 10⟩
          (presenceReport 0x01 0x2F ++ presenceReport 0x00 0x2E) ∧
    (Frame.mk (presenceReport 0x01 0x2F) 10).msg.getD CONTROL 0 = K0.HUMAN_STATUS ∧
    (Frame.mk (presenceReport 0x01 0x2F) 10).msg.getD COMMAND 0 = K0.PRESENCE ∧
    (Frame.mk (presenceReport 0x01 0x2F) 10).msg.getD DATA 0 = 0x01 ∧
    getFrame K0 (zeroFrame 10) (presenceReport 0x01 0x2F ++ presenceReport 0x00 0x2E)
      = Outcome.ret true ⟨presenceReport 0x01 0x2F, 10⟩ (presenceReport 0x00 0x2E) ∧
    getFrame K0 (zeroFrame 10) (presenceReport 0x00 0x2E)
      = Outcome.ret true ⟨presenceReport 0x00 0x2E, 10⟩ [] ∧
    (Frame.mk (presenceReport 0x00 0x2E) 10).msg.getD CONTROL 0 = K0.HUMAN_STATUS ∧
    (Frame.mk (presenceReport 0x00 0x2E) 10).msg.getD COMMAND 0 = K0.PRESENCE ∧
    (Frame.mk (presenceReport 0x00 0x2E) 10).msg.getD DATA 0 = 0x00 ∧
    (0x00 : Nat) ≠ 0x01 ∧
    ∃ (c : Bool) (r1 : Radar),
      updateStatus K0 ⟨0x00, 0x00⟩ (zeroFrame 10)
          (presenceReport 0x01 0x2F ++ presenceReport 0x01 0x2F ++ presenceReport 0x00 0x2E)
        = Status.returned c r1 (presenceReport 0x01 0x2F ++ presenceReport 0x00 0x2E) ∧
      (c = true ↔ 0x01 ≠ (Radar.mk 0x00 0x00).presence) ∧
      r1.presence = 0x01 ∧ (isPresent r1 = true ↔ (0x01 : Nat) ≠ 0x00) ∧
      updateStatus K0 r1 (zeroFrame 10) (presenceReport 0x01 0x2F ++ presenceReport 0x00 0x2E)
        = Status.returned false r1 (presenceReport 0x00 0x2E) ∧
      updateStatus K0 r1 (zeroFrame 10) (presenceReport 0x00 0x2E)
        = Status.returned true ⟨0x00, r1.motion⟩ [] ∧
      (isPresent ⟨0x00, r1.motion⟩ = true ↔ (0x00 : Nat) ≠ 0x00) :=
  have h1 : getFrame K0 (zeroFrame 10)
        (presenceReport 0x01 0x2F ++ presenceReport 0x01 0x2F ++ presenceReport 0x00 0x2E)
      = Outcome.ret true ⟨presenceReport 0x01 0x2F, 10⟩
          (presenceReport 0x01 0x2F ++ presenceReport 0x00 0x2E) := by
    simp [getFrame, scanHead, seekEnd, read, K0, zeroFrame, presenceReport]
  have h2 : getFrame K0 (zeroFrame 10) (presenceReport 0x01 0x2F ++ presenceReport 0x00 0x2E)
      = Outcome.ret true ⟨presenceReport 0x01 0x2F, 10⟩ (presenceReport 0x00 0x2E) := by
    simp [getFrame, scanHead, seekEnd, read, K0, zeroFrame, presenceReport]
  have h3 : getFrame K0 (zeroFrame 10) (presenceReport 0x00 0x2E)
      = Outcome.ret true ⟨presenceReport 0x00 0x2E, 10⟩ [] := by
    simp [getFrame, scanHead, seekEnd, read, K0, zeroFrame, presenceReport]
  ⟨h1, by decide, by decide, by decide, h2, h3, by decide, by decide, by decide, by decide,
    updateStatus_repeat K0 ⟨0x00, 0x00⟩ (zeroFrame 10) (zeroFrame 10) (zeroFrame 10)
      (presenceReport 0x01 0x2F ++ presenceReport 0x01 0x2F ++ presenceReport 0x00 0x2E)
      (presenceReport 0x01 0x2F ++ presenceReport 0x00 0x2E) (presenceReport 0x00 0x2E) []
      ⟨presenceReport 0x01 0x2F, 10⟩ ⟨presenceReport 0x01 0x2F, 10⟩
      ⟨presenceReport 0x00 0x2E, 10⟩ 0x01 0x00
      h1 (by decide) (by decide) (by decide) h2 (by decide) (by decide) (by decide)
      h3 (by decide) (by decide) (by decide) (by decide)⟩

/-- C15 fails for a stored presence other than 0x00 and 0x01: with presence
0x02, which is not the sentinel 0x01, `isPresent` is true. -/
theorem isPresent_of_two :
    isPresent ⟨0x02, 0x00⟩ = true ∧ (Radar.mk 0x02 0x00).presence ≠ 0x01 := by
  constructor <;> decide

/-- C15 as amended: `isPresent` is true exactly when the stored presence is
not 0x00. -/
theorem isPresent_iff (r : Radar) : isPresent r = true ↔ r.presence ≠ 0x00 := by
  simp [isPresent]

/-- C16: `isMoving` is true exactly when the stored motion is 0x02, and after
`updateStatus` has received a `HUMAN_STATUS`/`MOTION` frame `isMoving` is true
exactly when the data byte of that frame is 0x02. -/
theorem isMoving_iff (K : Header) (r : Radar) (f0 : Frame) (s : List Nat) (g : Frame)
    (rest : List Nat) (hne : K.PRESENCE ≠ K.MOTION)
    (hg : getFrame K f0 s = Outcome.ret true g rest)
    (hc : g.msg.getD CONTROL 0 = K.HUMAN_STATUS) (hm : g.msg.getD COMMAND 0 = K.MOTION) :
    (isMoving r = true ↔ r.motion = 0x02) ∧
    ∃ (c : Bool) (r1 : Radar), updateStatus K r f0 s = Status.returned c r1 rest ∧
      (isMoving r1 = true ↔ g.msg.getD DATA 0 = 0x02) := by
  constructor
  · simp [isMoving]
  · rw [updateStatus_frame K r f0 s g rest hg, hc, hm]
    generalize g.msg.getD DATA 0 = dat
    by_cases h4 : dat = r.motion
    · exact ⟨false, r, by simp [h4, hne.symm], by simp [isMoving, h4]⟩
    · exact ⟨true, ⟨r.presence, dat⟩, by simp [h4, hne.symm], by simp [isMoving]⟩

/-- C16 on the motion report with data 0x02 received while the stored motion is
0x01. -/
theorem isMoving_iff_witness :
    K0.PRESENCE ≠ K0.MOTION ∧
    getFrame K0 (zeroFrame 10) (motionReport 0x02 0x31)
      = Outcome.ret true ⟨motionReport 0x02 0x31, 10⟩ [] ∧
    (Frame.mk (motionReport 0x02 0x31) 10).msg.getD CONTROL 0 = K0.HUMAN_STATUS ∧
    (Frame.mk (motionReport 0x02 0x31) 10).msg.getD COMMAND 0 = K0.MOTION ∧
    (isMoving ⟨0x01, 0x01⟩ = true ↔ (Radar.mk 0x01 0x01).motion = 0x02) ∧
    ∃ (c : Bool) (r1 : Radar),
      updateStatus K0 ⟨0x01, 0x01⟩ (zeroFrame 10) (motionReport 0x02 0x31)
        = Status.returned c r1 [] ∧
      (isMoving r1 = true ↔ (Frame.mk (motionReport 0x02 0x31) 10).msg.getD DATA 0 = 0x02) :=
  have h2 : getFrame K0 (zeroFrame 10) (motionReport 0x02 0x31)
      = Outcome.ret true ⟨motionReport 0x02 0x31, 10⟩ [] := by
    simp [getFrame, scanHead, seekEnd, read, K0, zeroFrame, motionReport]
  ⟨by decide, h2, by decide, by decide,
    isMoving_iff K0 ⟨0x01, 0x01⟩ (zeroFrame 10) (motionReport 0x02 0x31)
      ⟨motionReport 0x02 0x31, 10⟩ [] (by decide) h2 (by decide) (by decide)⟩

/-- C17, evaluated on two false starts in front of the frame
`[HEAD1, HEAD2, 0x01, END2]`: `getFrame` returns true with six bytes, and the
byte at index 1 is `HEAD1`, not `HEAD2`; the header sits at indices 2 and 3. -/
theorem getFrame_header_shifted :
    getFrame K0 (zeroFrame 10) ([0x53, 0xAA, 0x53, 0xBB] ++ [0x53, 0x59, 0x01, 0x43]) =
        Outcome.ret true ⟨[0x53, 0x53, 0x53, 0x59, 0x01, 0x43, 0, 0, 0, 0], 6⟩ [] ∧
      (Frame.mk [0x53, 0x53, 0x53, 0x59, 0x01, 0x43, 0, 0, 0, 0] 6).msg.getD 1 0 ≠ K0.HEAD2 := by
  refine ⟨?_, by decide⟩
  simp [getFrame, scanHead, seekEnd, read, K0, zeroFrame]

/-- C18, evaluated on a frame one byte longer than the array: the eleven byte
frame `[HEAD1, HEAD2, 1, ..., 8, END2]` is not rejected with a failure result;
`getFrame` runs through `frame->l = l+1` with `l = 10` and stores the
terminator at index 10 of a ten byte array. -/
theorem getFrame_long_frame_overflow :
    getFrame K0 (zeroFrame 10) ([0x53, 0x59] ++ [1, 2, 3, 4, 5, 6, 7, 8] ++ [0x43])
      = Outcome.overflow := by
  simp [getFrame, scanHead, seekEnd, read, K0, zeroFrame]

/-- C19: on a buffer that holds two frames one after the other (each a header,
a body without `END2` and the terminator, each fitting the array it is read
into) and then any further bytes, the first call of `getFrame` returns the
first frame and leaves the second frame and what follows unread; a second call
on what is left returns the second frame and leaves what follows unread. -/
theorem getFrame_two_frames (K : Header) (fa fb : Frame) (body1 body2 rest : List Nat)
    (h1 : K.END2 ∉ body1) (h2 : K.END2 ∉ body2)
    (hc1 : ([K.HEAD1, K.HEAD2] ++ body1 ++ [K.END2]).length ≤ fa.msg.length)
    (hc2 : ([K.HEAD1, K.HEAD2] ++ body2 ++ [K.END2]).length ≤ fb.msg.length) :
    ∃ g1 g2 : Frame,
      getFrame K fa (([K.HEAD1, K.HEAD2] ++ body1 ++ [K.END2])
          ++ ([K.HEAD1, K.HEAD2] ++ body2 ++ [K.END2]) ++ rest)
        = Outcome.ret true g1 (([K.HEAD1, K.HEAD2] ++ body2 ++ [K.END2]) ++ rest) ∧
      g1.l = ([K.HEAD1, K.HEAD2] ++ body1 ++ [K.END2]).length ∧
      g1.msg.take g1.l = [K.HEAD1, K.HEAD2] ++ body1 ++ [K.END2] ∧
      getFrame K fb (([K.HEAD1, K.HEAD2] ++ body2 ++ [K.END2]) ++ rest)
        = Outcome.ret true g2 rest ∧
      g2.l = ([K.HEAD1, K.HEAD2] ++ body2 ++ [K.END2]).length ∧
      g2.msg.take g2.l = [K.HEAD1, K.HEAD2] ++ body2 ++ [K.END2] := by
  have hcap1 : body1.length + 3 ≤ fa.msg.length := by simpa using hc1
  have hcap2 : body2.length + 3 ≤ fb.msg.length := by simpa using hc2
  have e1 := getFrame_frame_eq K fa [] body1
    (([K.HEAD1, K.HEAD2] ++ body2 ++ [K.END2]) ++ rest) (by simp) h1 hcap1
  have e2 := getFrame_frame_eq K fb [] body2 rest (by simp) h2 hcap2
  have l1 : ([K.HEAD1, K.HEAD2] ++ body1 ++ [K.END2]).length = body1.length + 3 := by simp
  have l2 : ([K.HEAD1, K.HEAD2] ++ body2 ++ [K.END2]).length = body2.length + 3 := by simp
  refine ⟨⟨[K.HEAD1, K.HEAD2] ++ body1 ++ [K.END2] ++ fa.msg.drop (body1.length + 3),
      body1.length + 3⟩,
    ⟨[K.HEAD1, K.HEAD2] ++ body2 ++ [K.END2] ++ fb.msg.drop (body2.length + 3),
      body2.length + 3⟩, ?_, l1.symm, ?_, ?_, l2.symm, ?_⟩
  · simpa using e1
  · show List.take (body1.length + 3) _ = _
    rw [← l1, List.take_left]
  · simpa using e2
  · show List.take (body2.length + 3) _ = _
    rw [← l2, List.take_left]

/-- C19 on a motion report followed by a presence report. -/
theorem getFrame_two_frames_witness :
    K0.END2 ∉ [0x80, 0x02, 0x00, 0x01, 0x02, 0x31, 0x54] ∧
    K0.END2 ∉ [0x80, 0x01, 0x00, 0x01, 0x01, 0x2F, 0x54] ∧
    ([K0.HEAD1, K0.HEAD2] ++ [0x80, 0x02, 0x00, 0x01, 0x02, 0x31, 0x54] ++ [K0.END2]).length
      ≤ (zeroFrame 10).msg.length ∧
    ([K0.HEAD1, K0.HEAD2] ++ [0x80, 0x01, 0x00, 0x01, 0x01, 0x2F, 0x54] ++ [K0.END2]).length
      ≤ (zeroFrame 10).msg.length ∧
    ∃ g1 g2 : Frame,
      getFrame K0 (zeroFrame 10)
          (([K0.HEAD1, K0.HEAD2] ++ [0x80, 0x02, 0x00, 0x01, 0x02, 0x31, 0x54] ++ [K0.END2])
            ++ ([K0.HEAD1, K0.HEAD2] ++ [0x80, 0x01, 0x00, 0x01, 0x01, 0x2F, 0x54] ++ [K0.END2])
            ++ [])
        = Outcome.ret true g1
            (([K0.HEAD1, K0.HEAD2] ++ [0x80, 0x01, 0x00, 0x01, 0x01, 0x2F, 0x54] ++ [K0.END2])
              ++ []) ∧
      g1.l = ([K0.HEAD1, K0.HEAD2] ++ [0x80, 0x02, 0x00, 0x01, 0x02, 0x31, 0x54]
        ++ [K0.END2]).length ∧
      g1.msg.take g1.l
        = [K0.HEAD1, K0.HEAD2] ++ [0x80, 0x02, 0x00, 0x01, 0x02, 0x31, 0x54] ++ [K0.END2] ∧
      getFrame K0 (zeroFrame 10)
          (([K0.HEAD1, K0.HEAD2] ++ [0x80, 0x01, 0x00, 0x01, 0x01, 0x2F, 0x54] ++ [K0.END2])
            ++ [])
        = Outcome.ret true g2 [] ∧
      g2.l = ([K0.HEAD1, K0.HEAD2] ++ [0x80, 0x01, 0x00, 0x01, 0x01, 0x2F, 0x54]
        ++ [K0.END2]).length ∧
      g2.msg.take g2.l
        = [K0.HEAD1, K0.HEAD2] ++ [0x80, 0x01, 0x00, 0x01, 0x01, 0x2F, 0x54] ++ [K0.END2] :=
  ⟨by decide, by decide, by decide, by decide,
    getFrame_two_frames K0 (zeroFrame 10) (zeroFrame 10)
      [0x80, 0x02, 0x00, 0x01, 0x02, 0x31, 0x54] [0x80, 0x01, 0x00, 0x01, 0x01, 0x2F, 0x54] []
      (by decide) (by decide) (by decide) (by decide)⟩

end LiteRadar
